import Mathlib

/-!
Verification of the wallet/session/contract synchronization core of the
Shardeum marketplace client (`src/App.tsx`).

The embedding translates the source functions into pure Lean functions over
an explicit application state (`AppState`, mirroring the React `useState`
fields) and an oracle (`World`) supplying the results of the external
wallet/ledger calls.  Each function additionally returns the list of
externally visible effects (`Eff`) it issues, in order, so that claims
about which requests are made (and in which order) can be stated.

Numeric conversion mirrors ethers v5 `formatEther` / `parseEther`
(`formatFixed` / `parseFixed` with 18 decimals), implemented over actual
character lists with exact integer arithmetic, as the library does with
bignums.
-/

/-- One native-currency token in smallest units (wei per SHM): `10 ^ 18`. -/
def WEI : Nat := 10 ^ 18

/-- The character for a single decimal digit. -/
def digitChar (d : Nat) : Char := Char.ofNat (48 + d)

/-- The numeric value of a decimal digit character. -/
def charDigit (c : Char) : Nat := c.toNat - 48

/-- Least-significant-first decimal digits of `n`, by fuel-bounded
structural recursion (`[]` for `0`), so that it reduces in the kernel. -/
def digitsLSDAux (fuel n : Nat) : List Nat :=
  match fuel, n with
  | _, 0 => []
  | 0, _ => []
  | fuel + 1, n + 1 => ((n + 1) % 10) :: digitsLSDAux fuel ((n + 1) / 10)

/-- Least-significant-first decimal digits of `n` (`[]` for `0`). -/
def natDigitsLSD (n : Nat) : List Nat := digitsLSDAux n n

/-- Most-significant-first decimal digits of `n` (`[]` for `0`). -/
def natDigitsMSD (n : Nat) : List Nat := (natDigitsLSD n).reverse

/-- Value of a least-significant-first digit list. -/
def ofDigitsLSD : List Nat → Nat
  | [] => 0
  | d :: t => d + 10 * ofDigitsLSD t

/-- Value of a most-significant-first digit list (Horner evaluation). -/
def digitsVal (l : List Nat) : Nat := l.foldl (fun a d => 10 * a + d) 0

lemma digitsLSDAux_zero (fuel : Nat) : digitsLSDAux fuel 0 = [] := by
  cases fuel <;> rfl

lemma digitsLSDAux_fuelzero (n : Nat) : digitsLSDAux 0 n = [] := by
  cases n <;> rfl

lemma digitsLSDAux_succ (fuel n : Nat) :
    digitsLSDAux (fuel + 1) (n + 1) = ((n + 1) % 10) :: digitsLSDAux fuel ((n + 1) / 10) := rfl

lemma ofDigitsLSD_digitsLSDAux : ∀ fuel n, n ≤ fuel → ofDigitsLSD (digitsLSDAux fuel n) = n := by
  intro fuel
  induction fuel with
  | zero =>
    intro n hn
    have : n = 0 := Nat.le_zero.mp hn
    subst this
    rfl
  | succ f ih =>
    intro n hn
    cases n with
    | zero => rfl
    | succ m =>
      rw [digitsLSDAux_succ, ofDigitsLSD]
      have hlt : (m + 1) / 10 < m + 1 := Nat.div_lt_self (Nat.succ_pos m) (by norm_num)
      have hdiv : (m + 1) / 10 ≤ f := by omega
      rw [ih _ hdiv]
      omega

lemma ofDigitsLSD_natDigitsLSD (n : Nat) : ofDigitsLSD (natDigitsLSD n) = n :=
  ofDigitsLSD_digitsLSDAux n n le_rfl

lemma mem_digitsLSDAux_lt : ∀ fuel n d, d ∈ digitsLSDAux fuel n → d < 10 := by
  intro fuel
  induction fuel with
  | zero =>
    intro n d hd
    rw [digitsLSDAux_fuelzero] at hd
    exact absurd hd (List.not_mem_nil d)
  | succ f ih =>
    intro n d hd
    cases n with
    | zero =>
      rw [digitsLSDAux_zero] at hd
      exact absurd hd (List.not_mem_nil d)
    | succ m =>
      rw [digitsLSDAux_succ] at hd
      rcases List.mem_cons.mp hd with h | h
      · subst h; exact Nat.mod_lt _ (by norm_num)
      · exact ih _ _ h

lemma mem_natDigitsMSD_lt (n d : Nat) (hd : d ∈ natDigitsMSD n) : d < 10 :=
  mem_digitsLSDAux_lt n n d (List.mem_reverse.mp hd)

lemma length_digitsLSDAux : ∀ fuel n k, n ≤ fuel → n < 10 ^ k →
    (digitsLSDAux fuel n).length ≤ k := by
  intro fuel
  induction fuel with
  | zero =>
    intro n k hn _
    have : n = 0 := Nat.le_zero.mp hn
    subst this
    simp [digitsLSDAux_zero]
  | succ f ih =>
    intro n k hn hk
    cases n with
    | zero => simp [digitsLSDAux_zero]
    | succ m =>
      cases k with
      | zero => simp at hk
      | succ j =>
        rw [digitsLSDAux_succ]
        have hlt : (m + 1) / 10 < m + 1 := Nat.div_lt_self (Nat.succ_pos m) (by norm_num)
        have hdiv : (m + 1) / 10 ≤ f := by omega
        have hsmall : (m + 1) / 10 < 10 ^ j := by
          rw [Nat.div_lt_iff_lt_mul (by norm_num : 0 < 10)]
          calc m + 1 < 10 ^ (j + 1) := hk
            _ = 10 ^ j * 10 := by ring
        have := ih _ j hdiv hsmall
        simpa using Nat.succ_le_succ this

lemma length_natDigitsMSD_le (n k : Nat) (h : n < 10 ^ k) : (natDigitsMSD n).length ≤ k := by
  unfold natDigitsMSD natDigitsLSD
  rw [List.length_reverse]
  exact length_digitsLSDAux n n k le_rfl h

lemma natDigitsLSD_ne_nil {n : Nat} (h : n ≠ 0) : natDigitsLSD n ≠ [] := by
  cases n with
  | zero => exact absurd rfl h
  | succ m =>
    unfold natDigitsLSD
    rw [digitsLSDAux_succ]
    exact List.cons_ne_nil _ _

lemma digitsVal_foldl (l : List Nat) (a : Nat) :
    l.foldl (fun x d => 10 * x + d) a = a * 10 ^ l.length + digitsVal l := by
  induction l generalizing a with
  | nil => simp [digitsVal]
  | cons d t ih =>
    have hval : digitsVal (d :: t) = t.foldl (fun x d => 10 * x + d) (10 * 0 + d) := rfl
    rw [List.foldl_cons, ih (10 * a + d), hval, ih (10 * 0 + d)]
    simp [List.length_cons, pow_succ]
    ring

lemma digitsVal_append (l1 l2 : List Nat) :
    digitsVal (l1 ++ l2) = digitsVal l1 * 10 ^ l2.length + digitsVal l2 := by
  unfold digitsVal
  rw [List.foldl_append]
  exact digitsVal_foldl l2 _

lemma digitsVal_reverse_ofDigitsLSD (l : List Nat) : digitsVal l.reverse = ofDigitsLSD l := by
  induction l with
  | nil => rfl
  | cons d t ih =>
    rw [List.reverse_cons, digitsVal_append, ih, ofDigitsLSD]
    have : digitsVal [d] = d := by simp [digitsVal]
    rw [this]
    simp
    ring

lemma digitsVal_natDigitsMSD (n : Nat) : digitsVal (natDigitsMSD n) = n := by
  unfold natDigitsMSD
  rw [digitsVal_reverse_ofDigitsLSD, ofDigitsLSD_natDigitsLSD]

lemma digitsVal_replicate_zero (k : Nat) : digitsVal (List.replicate k 0) = 0 := by
  induction k with
  | zero => rfl
  | succ j ih =>
    rw [List.replicate_succ', digitsVal_append, ih]
    simp [digitsVal]

lemma digitsVal_append_replicate_zero (l : List Nat) (k : Nat) :
    digitsVal (l ++ List.replicate k 0) = digitsVal l * 10 ^ k := by
  rw [digitsVal_append, digitsVal_replicate_zero, List.length_replicate]
  ring

lemma digitsVal_replicate_prepend (k : Nat) (l : List Nat) :
    digitsVal (List.replicate k 0 ++ l) = digitsVal l := by
  rw [digitsVal_append, digitsVal_replicate_zero]
  ring

/-- Left-pad a fraction digit list with zeros to 18 digits
(ethers `formatFixed`: `while (fraction.length < 18) fraction = "0" + fraction`). -/
def padFrac (l : List Nat) : List Nat := List.replicate (18 - l.length) 0 ++ l

/-- Strip trailing zero digits
(ethers `formatFixed`: `fraction.match(/^([0-9]*[1-9]|0)(0*)/)[1]`, nonzero case). -/
def trimTrailingZeros (l : List Nat) : List Nat :=
  (l.reverse.dropWhile (fun d => d == 0)).reverse

/-- Strip trailing zero digits, keeping at least one digit
(the regex falls back to `"0"` when the padded fraction is all zeros). -/
def trimFrac (l : List Nat) : List Nat :=
  if trimTrailingZeros l = [] then [0] else trimTrailingZeros l

lemma exists_replicate_append_dropWhile (r : List Nat) :
    ∃ k, r = List.replicate k 0 ++ r.dropWhile (fun d => d == 0) := by
  induction r with
  | nil => exact ⟨0, rfl⟩
  | cons d t ih =>
    by_cases hd : d = 0
    · obtain ⟨k, hk⟩ := ih
      refine ⟨k + 1, ?_⟩
      subst hd
      rw [List.dropWhile_cons]
      simp only [beq_self_eq_true, if_true]
      rw [List.replicate_succ, List.cons_append]
      exact congrArg (0 :: ·) hk
    · refine ⟨0, ?_⟩
      rw [List.dropWhile_cons]
      have : (d == 0) = false := beq_false_of_ne hd
      simp [this]

lemma trim_decomp (l : List Nat) :
    ∃ k, l = trimTrailingZeros l ++ List.replicate k 0 ∧
      l.length = (trimTrailingZeros l).length + k := by
  obtain ⟨k, hk⟩ := exists_replicate_append_dropWhile l.reverse
  refine ⟨k, ?_, ?_⟩
  · conv_lhs => rw [← List.reverse_reverse l, hk]
    rw [List.reverse_append, List.reverse_replicate]
    rfl
  · conv_lhs => rw [← List.reverse_reverse l, hk]
    simp [trimTrailingZeros]

lemma mem_trimTrailingZeros (l : List Nat) (d : Nat) (hd : d ∈ trimTrailingZeros l) : d ∈ l := by
  obtain ⟨k, hl, _⟩ := trim_decomp l
  rw [hl]
  exact List.mem_append_left _ hd

lemma digitsVal_trimFrac (l : List Nat) (hlen : l.length = 18) :
    digitsVal (trimFrac l ++ List.replicate (18 - (trimFrac l).length) 0) = digitsVal l ∧
      (trimFrac l).length ≤ 18 ∧ trimFrac l ≠ [] := by
  obtain ⟨k, hl, hlen2⟩ := trim_decomp l
  by_cases ht : trimTrailingZeros l = []
  · rw [trimFrac, if_pos ht]
    refine ⟨?_, by norm_num, by simp⟩
    rw [hl, ht, List.nil_append]
    rw [digitsVal_append_replicate_zero, digitsVal_replicate_zero]
    have : digitsVal [0] = 0 := by simp [digitsVal]
    rw [this]
    ring
  · rw [trimFrac, if_neg ht]
    have hk : k = 18 - (trimTrailingZeros l).length := by omega
    refine ⟨?_, by omega, ht⟩
    conv_rhs => rw [hl]
    rw [digitsVal_append_replicate_zero, digitsVal_append_replicate_zero, hk]

lemma padFrac_length (l : List Nat) (h : l.length ≤ 18) : (padFrac l).length = 18 := by
  simp [padFrac]
  omega

lemma digitsVal_padFrac (l : List Nat) : digitsVal (padFrac l) = digitsVal l :=
  digitsVal_replicate_prepend _ _

lemma mem_padFrac (l : List Nat) (d : Nat) (hd : d ∈ padFrac l) : d = 0 ∨ d ∈ l := by
  rcases List.mem_append.mp hd with h | h
  · exact Or.inl (List.eq_of_mem_replicate h)
  · exact Or.inr h

lemma charDigit_digitChar {d : Nat} (h : d < 10) : charDigit (digitChar d) = d := by
  interval_cases d <;> decide

lemma isDigit_digitChar {d : Nat} (h : d < 10) : (digitChar d).isDigit = true := by
  interval_cases d <;> decide

lemma digitChar_ne_dot {d : Nat} (h : d < 10) : (digitChar d == '.') = false := by
  interval_cases d <;> decide

lemma isDigit_beq_dot {c : Char} (h : c.isDigit = true) : (c == '.') = false := by
  cases hbeq : c == '.'
  · rfl
  · have : c = '.' := eq_of_beq hbeq
    subst this
    exact absurd h (by decide)

lemma map_charDigit_digitChar (l : List Nat) (h : ∀ d ∈ l, d < 10) :
    (l.map digitChar).map charDigit = l := by
  induction l with
  | nil => rfl
  | cons d t ih =>
    simp only [List.map_cons, List.cons.injEq]
    exact ⟨charDigit_digitChar (h d (List.mem_cons_self d t)),
      ih fun x hx => h x (List.mem_cons_of_mem d hx)⟩

/-- Decimal character run of a natural number, mirroring bignum `toString`
(`"0"` for zero, no leading zeros otherwise). -/
def natToChars (n : Nat) : List Char :=
  if n = 0 then ['0'] else (natDigitsMSD n).map digitChar

lemma natToChars_all_digit (n : Nat) : ∀ c ∈ natToChars n, c.isDigit = true := by
  intro c hc
  unfold natToChars at hc
  split at hc
  · rcases List.mem_singleton.mp hc with rfl
    decide
  · obtain ⟨d, hd, rfl⟩ := List.mem_map.mp hc
    exact isDigit_digitChar (mem_natDigitsMSD_lt n d hd)

lemma natToChars_ne_nil (n : Nat) : natToChars n ≠ [] := by
  unfold natToChars
  split
  · exact List.cons_ne_nil _ _
  · intro h
    rw [List.map_eq_nil_iff] at h
    exact natDigitsLSD_ne_nil (by assumption) (by
      have := congrArg List.reverse h
      simpa [natDigitsMSD] using this)

lemma digitsVal_map_charDigit_natToChars (n : Nat) :
    digitsVal ((natToChars n).map charDigit) = n := by
  unfold natToChars
  split
  · subst_vars
    decide
  · rw [map_charDigit_digitChar _ (mem_natDigitsMSD_lt n), digitsVal_natDigitsMSD]

/-- `ethers.utils.formatEther` on a native-unit (wei) amount, as the exact
character run it produces: whole part, `'.'`, fraction padded to 18 digits
then stripped of trailing zeros (at least one digit kept). -/
def formatEtherChars (wei : Nat) : List Char :=
  natToChars (wei / WEI) ++ '.' :: (trimFrac (padFrac (natDigitsMSD (wei % WEI)))).map digitChar

/-- `ethers.utils.formatEther` producing a string. -/
def formatEther (wei : Nat) : String := ⟨formatEtherChars wei⟩

/-- `ethers.utils.parseEther` over the character run of a decimal string:
validate (digits and at most one dot, not empty, not a lone dot), split on
the dot, pad the fraction with trailing zeros to 18 digits, and combine with
exact integer arithmetic.  `none` models the library throwing.  The
negative-number branch of the library is omitted: no price in this client is
negative. -/
def parseEtherChars (s : List Char) : Option Nat :=
  if (s.all fun c => c.isDigit || c == '.') = true ∧ s ≠ [] ∧ s ≠ ['.'] then
    let whole := (s.takeWhile fun c => !(c == '.')).map charDigit
    match s.dropWhile fun c => !(c == '.') with
    | [] => some (digitsVal whole * WEI)
    | _ :: rest =>
      if (rest.any fun c => c == '.') = true then none
      else if 18 < rest.length then none
      else
        let frac := if rest = [] then ['0'] else rest
        some (digitsVal whole * WEI +
          digitsVal ((frac ++ List.replicate (18 - frac.length) '0').map charDigit))
  else none

/-- `ethers.utils.parseEther` on a string. -/
def parseEther (s : String) : Option Nat := parseEtherChars s.data

lemma takeWhile_dropWhile_append_cons (p : Char → Bool) (l1 : List Char) (x : Char)
    (l2 : List Char) (h : ∀ c ∈ l1, p c = true) (hx : p x = false) :
    (l1 ++ x :: l2).takeWhile p = l1 ∧ (l1 ++ x :: l2).dropWhile p = x :: l2 := by
  induction l1 with
  | nil => simp [List.takeWhile_cons, List.dropWhile_cons, hx]
  | cons a t ih =>
    have ha : p a = true := h a (List.mem_cons_self a t)
    have hih := ih fun c hc => h c (List.mem_cons_of_mem a hc)
    simp only [List.cons_append, List.takeWhile_cons, List.dropWhile_cons, ha, if_true,
      List.cons.injEq, true_and]
    exact ⟨hih.1, hih.2⟩

set_option maxHeartbeats 1600000 in
/-- Exactness of the decimal round-trip: parsing the display string that
`formatEther` produced recovers the original native-unit amount. -/
lemma parseEtherChars_formatEtherChars (wei : Nat) :
    parseEtherChars (formatEtherChars wei) = some wei := by
  have hfraclt : wei % WEI < 10 ^ 18 := Nat.mod_lt _ (by norm_num [WEI])
  have hdigle : (natDigitsMSD (wei % WEI)).length ≤ 18 := length_natDigitsMSD_le _ _ hfraclt
  have hpadlen : (padFrac (natDigitsMSD (wei % WEI))).length = 18 := padFrac_length _ hdigle
  obtain ⟨hval, htflen, htfne⟩ := digitsVal_trimFrac (padFrac (natDigitsMSD (wei % WEI))) hpadlen
  set tf := trimFrac (padFrac (natDigitsMSD (wei % WEI))) with htf
  have htf10 : ∀ d ∈ tf, d < 10 := by
    intro d hd
    rw [htf, trimFrac] at hd
    split at hd
    · rcases List.mem_singleton.mp hd with rfl
      norm_num
    · rcases mem_padFrac _ _ (mem_trimTrailingZeros _ _ hd) with h0 | h1
      · subst h0; norm_num
      · exact mem_natDigitsMSD_lt _ _ h1
  set wcs := natToChars (wei / WEI) with hwcs
  set fcs := tf.map digitChar with hfcs
  have hSform : formatEtherChars wei = wcs ++ '.' :: fcs := rfl
  have hwdig : ∀ c ∈ wcs, c.isDigit = true := natToChars_all_digit _
  have hfdig : ∀ c ∈ fcs, c.isDigit = true := by
    intro c hc
    obtain ⟨d, hd, rfl⟩ := List.mem_map.mp hc
    exact isDigit_digitChar (htf10 d hd)
  have hfcs_ne : fcs ≠ [] := by
    rw [hfcs]
    exact fun h => htfne (List.map_eq_nil_iff.mp h)
  have hall : ((wcs ++ '.' :: fcs).all fun c => c.isDigit || c == '.') = true := by
    rw [List.all_eq_true]
    intro c hc
    rcases List.mem_append.mp hc with h | h
    · simp [hwdig c h]
    · rcases List.mem_cons.mp h with rfl | h
      · decide
      · simp [hfdig c h]
  have hne1 : wcs ++ '.' :: fcs ≠ [] := by simp
  have hne2 : wcs ++ '.' :: fcs ≠ ['.'] := by
    intro h
    have hlen := congrArg List.length h
    simp at hlen
    have h1 : wcs ≠ [] := natToChars_ne_nil _
    have h2 : wcs.length ≠ 0 := fun hz => h1 (List.length_eq_zero.mp hz)
    omega
  have hsplit := takeWhile_dropWhile_append_cons (fun c => !(c == '.')) wcs '.' fcs
    (fun c hc => by
      show (!(c == '.')) = true
      rw [isDigit_beq_dot (hwdig c hc)]
      rfl) (by decide)
  rw [hSform]
  unfold parseEtherChars
  rw [if_pos ⟨hall, hne1, hne2⟩, hsplit.1, hsplit.2]
  dsimp only
  have hany : ¬ ((fcs.any fun c => c == '.') = true) := by
    rw [List.any_eq_true]
    rintro ⟨c, hc, hcd⟩
    rw [isDigit_beq_dot (hfdig c hc)] at hcd
    exact Bool.false_ne_true hcd
  rw [if_neg hany]
  have hfcslen : fcs.length = tf.length := List.length_map _ _
  rw [if_neg (by omega : ¬ 18 < fcs.length), if_neg hfcs_ne]
  congr 1
  have hwhole : digitsVal (wcs.map charDigit) = wei / WEI :=
    digitsVal_map_charDigit_natToChars _
  have hmap : (fcs ++ List.replicate (18 - fcs.length) '0').map charDigit =
      tf ++ List.replicate (18 - tf.length) 0 := by
    rw [List.map_append, List.map_replicate, hfcs, map_charDigit_digitChar tf htf10, hfcslen]
    norm_num [charDigit]
    exact Or.inr (by decide)
  rw [hwhole, hmap, hval, digitsVal_padFrac, digitsVal_natDigitsMSD]
  exact Nat.div_add_mod' wei WEI

/-- String-level round trip: `parseEther (formatEther x) = some x`. -/
lemma parseEther_formatEther (wei : Nat) : parseEther (formatEther wei) = some wei :=
  parseEtherChars_formatEtherChars wei

/-- A raw listing tuple as returned by the contract read
`items(i) -> (id, seller, name, price, sold)` (price in native units). -/
structure RawItem where
  id : Nat
  seller : String
  name : String
  price : Nat
  sold : Bool
deriving Repr, DecidableEq

/-- The client-side `Item` record (`interface Item` in the source): the
price is the display-decimal string produced by `formatEther`. -/
structure Item where
  id : Nat
  seller : String
  name : String
  price : String
  sold : Bool
deriving Repr, DecidableEq

/-- The `useState` fields of the `App` component.  Provider and contract
handles are modelled by presence (`Option Unit`): the claims only depend on
whether they are bound. -/
structure AppState where
  account : Option String
  provider : Option Unit
  contract : Option Unit
  items : List Item
  loading : Bool
  itemName : String
  itemPrice : String
  contractBalance : String
deriving Repr, DecidableEq

/-- The fixed network descriptor passed to `wallet_addEthereumChain`
(lines 112-120 of the source). -/
structure ChainDescriptor where
  chainId : String
  chainName : String
  currencyName : String
  currencySymbol : String
  currencyDecimals : Nat
  rpcUrls : List String
  blockExplorerUrls : List String
deriving Repr, DecidableEq

/-- The Shardeum Liberty 1.X descriptor, exactly as in the source. -/
def libertyChain : ChainDescriptor :=
  { chainId := "0x1f90"
    chainName := "Shardeum Liberty 1.X"
    currencyName := "SHM"
    currencySymbol := "SHM"
    currencyDecimals := 18
    rpcUrls := ["https://liberty10.shardeum.org/"]
    blockExplorerUrls := ["https://explorer-liberty10.shardeum.org/"] }

/-- Externally visible effects, in order of issue: wallet requests, ledger
reads, transaction submissions/settlement waits, the deferred-refresh timer,
and user-facing alerts. -/
inductive Eff where
  | reqChainId : Eff
  | reqSwitchChain : String → Eff
  | reqAddChain : ChainDescriptor → Eff
  | reqAccounts : Eff
  | getBalanceEff : Eff
  | readItemCount : Eff
  | readItemAt : Nat → Eff
  | submitListTx : String → Nat → Eff
  | submitBuyTx : Nat → Nat → Eff
  | txWait : Eff
  | timeout500 : Eff
  | alertMsg : String → Eff
deriving Repr, DecidableEq

/-- Oracle for the external wallet/ledger: the result each external call
would return if issued (`Except.error` models a throw / user rejection).
`switchChain` errors carry the provider error code (4902 = unknown network). -/
structure World where
  ethereum : Bool
  chainId : Except Unit String
  switchChain : Except Nat Unit
  addChain : Except Unit Unit
  requestAccounts : Except Unit (List String)
  getBalance : Except Unit Nat
  itemCount : Except Unit Nat
  itemAt : Nat → Except Unit RawItem
  listTx : Except Unit Unit
  buyTx : Except Unit Unit

/-- Exact decimal rendering of the contract balance with 6 fraction digits.
The source computes `Number(ethers.utils.formatEther(b)).toFixed(6)`, routing
through a binary float; this model performs the same rounding in exact
decimal arithmetic (half-up to 6 places).  No claim depends on float
artifacts, only on the balance being repopulated from the ledger. -/
def toFixed6 (wei : Nat) : String :=
  let micro := (wei + 5 * 10 ^ 11) / 10 ^ 12
  ⟨natToChars (micro / 10 ^ 6) ++
    '.' :: (List.replicate (6 - (natDigitsMSD (micro % 10 ^ 6)).length) 0 ++
      natDigitsMSD (micro % 10 ^ 6)).map digitChar⟩

/-- `fetchContractBalance(prov?)`: use the passed provider or the bound one;
silently return if none; read the balance and set the display string,
swallowing read errors (try/catch with only a `console.error`). -/
def fetchContractBalance (w : World) (prov : Option Unit) (s : AppState) :
    AppState × List Eff :=
  match (if prov.isSome then prov else s.provider) with
  | none => (s, [])
  | some _ =>
    match w.getBalance with
    | .error _ => (s, [Eff.getBalanceEff])
    | .ok b => ({ s with contractBalance := toFixed6 b }, [Eff.getBalanceEff])

/-- `item` assembly inside the `loadItems` loop body:
price converted from native units to the display decimal. -/
def toItem (raw : RawItem) : Item :=
  { id := raw.id
    seller := raw.seller
    name := raw.name
    price := formatEther raw.price
    sold := raw.sold }

/-- The `for (let i = 1; i <= count; i++)` read loop of `loadItems`:
reads indices `1..n` in ascending order, appending each converted listing;
the first failing read aborts the loop with the partial trace. -/
def readItemsUpTo (w : World) : Nat → Except Unit (List Item) × List Eff
  | 0 => (.ok [], [])
  | n + 1 =>
    match readItemsUpTo w n with
    | (.error e, t) => (.error e, t)
    | (.ok pre, t) =>
      match w.itemAt (n + 1) with
      | .error _ => (.error (), t ++ [Eff.readItemAt (n + 1)])
      | .ok raw => (.ok (pre ++ [toItem raw]), t ++ [Eff.readItemAt (n + 1)])

/-- `loadItems(contractInstance?)`: no-op without a bound contract; else set
`loading`, read `itemCount`, read listings `1..count`, publish the reversed
list; on any read failure keep the old cache; `finally` clears `loading`. -/
def loadItems (w : World) (cOverride : Option Unit) (s : AppState) :
    AppState × List Eff :=
  match (if cOverride.isSome then cOverride else s.contract) with
  | none => (s, [])
  | some _ =>
    let s1 := { s with loading := true }
    match w.itemCount with
    | .error _ => ({ s1 with loading := false }, [Eff.readItemCount])
    | .ok count =>
      match readItemsUpTo w count with
      | (.error _, t) => ({ s1 with loading := false }, Eff.readItemCount :: t)
      | (.ok loaded, t) =>
        ({ s1 with items := loaded.reverse, loading := false }, Eff.readItemCount :: t)

/-- `setupProviderAndContract(selectedAccount?)`: returns silently without a
wallet; else binds a fresh provider and contract handle, optionally sets the
account, and fetches the contract balance through the fresh provider. -/
def setupProviderAndContract (w : World) (selectedAccount : Option String)
    (s : AppState) : AppState × List Eff :=
  if w.ethereum = false then (s, [])
  else
    let s1 := { s with provider := some (), contract := some () }
    let s2 := match selectedAccount with
      | some a => { s1 with account := some a }
      | none => s1
    fetchContractBalance w (some ()) s2

/-- The network-guarantor section of `connectWallet` (lines 100-127): given
the current chain id, no-op if it already equals `"0x1f90"`; otherwise
request `wallet_switchEthereumChain`; if that fails with code 4902 request
`wallet_addEthereumChain` with the fixed Liberty descriptor; any other
switch failure, or a registration failure, rethrows (`Except.error`). -/
def ensureNetwork (w : World) (cid : String) : Except Unit Unit × List Eff :=
  if cid = "0x1f90" then (.ok (), [])
  else
    match w.switchChain with
    | .ok _ => (.ok (), [Eff.reqSwitchChain "0x1f90"])
    | .error code =>
      if code = 4902 then
        match w.addChain with
        | .ok _ => (.ok (), [Eff.reqSwitchChain "0x1f90", Eff.reqAddChain libertyChain])
        | .error _ => (.error (), [Eff.reqSwitchChain "0x1f90", Eff.reqAddChain libertyChain])
      else (.error (), [Eff.reqSwitchChain "0x1f90"])

/-- `connectWallet`: alert and stop without a wallet; read the chain id,
run the network guarantor, request account authorization, and on a
non-empty account list bind provider/contract/account.  Every throw lands
in the outer catch, which only alerts (state untouched). -/
def connectWallet (w : World) (s : AppState) : AppState × List Eff :=
  if w.ethereum = false then
    (s, [Eff.alertMsg "MetaMask not detected. Please install MetaMask."])
  else
    match w.chainId with
    | .error _ => (s, [Eff.reqChainId, Eff.alertMsg "Connection rejected or failed."])
    | .ok cid =>
      match ensureNetwork w cid with
      | (.error _, net) =>
        (s, Eff.reqChainId :: net ++ [Eff.alertMsg "Connection rejected or failed."])
      | (.ok _, net) =>
        match w.requestAccounts with
        | .error _ =>
          (s, Eff.reqChainId :: net ++
            [Eff.reqAccounts, Eff.alertMsg "Connection rejected or failed."])
        | .ok [] => (s, Eff.reqChainId :: net ++ [Eff.reqAccounts])
        | .ok (a :: _) =>
          let (s1, e1) := setupProviderAndContract w (some a) s
          ({ s1 with account := some a },
            Eff.reqChainId :: net ++ [Eff.reqAccounts] ++ e1)

/-- `handleAccountsChanged(accounts)`: the empty list resets account,
contract handle, listing cache and balance display; a non-empty list
rebinds to the first account and schedules (`setTimeout(..., 500)`,
modelled by the `timeout500` marker followed by the deferred work) a
listings and balance refresh. -/
def handleAccountsChanged (w : World) (accounts : List String) (s : AppState) :
    AppState × List Eff :=
  match accounts with
  | [] =>
    ({ s with account := none, contract := none, items := [], contractBalance := "0.0" }, [])
  | a :: _ =>
    let (s1, e1) := setupProviderAndContract w (some a) s
    let s2 := { s1 with account := some a }
    let (s3, e3) := loadItems w none s2
    let (s4, e4) := fetchContractBalance w none s3
    (s4, e1 ++ [Eff.timeout500] ++ e3 ++ e4)

/-- The state rendered while a mutating operation is in flight:
`setLoading(true)` has run, settlement has not completed. -/
def pendingMutationState (s : AppState) : AppState := { s with loading := true }

/-- The `disabled` expression of the List Item submit button
(`loading || !account || !contract`, line 418). -/
def listButtonDisabled (s : AppState) : Bool :=
  s.loading || s.account.isNone || s.contract.isNone

/-- The `disabled` expression of each Buy button (same guard, line 508). -/
def buyButtonDisabled (s : AppState) : Bool :=
  s.loading || s.account.isNone || s.contract.isNone

/-- `listNewItem`: precondition alerts (wallet bound; non-empty name and
price strings); then `setLoading(true)`, parse the price, submit
`listItem` and await settlement, clear the form fields, refresh listings
and balance, alert success; any throw is caught and alerted; `finally`
clears `loading`. -/
def listNewItem (w : World) (s : AppState) : AppState × List Eff :=
  if s.account = none ∨ s.contract = none then
    (s, [Eff.alertMsg "Connect your wallet first"])
  else if s.itemName = "" ∨ s.itemPrice = "" then
    (s, [Eff.alertMsg "Please enter item name and price"])
  else
    let s1 := pendingMutationState s
    match parseEther s.itemPrice with
    | none => ({ s1 with loading := false }, [Eff.alertMsg "Error listing item"])
    | some priceInWei =>
      match w.listTx with
      | .error _ =>
        ({ s1 with loading := false },
          [Eff.submitListTx s.itemName priceInWei, Eff.alertMsg "Error listing item"])
      | .ok _ =>
        let s2 := { s1 with itemName := "", itemPrice := "" }
        let (s3, t3) := loadItems w s.contract s2
        let (s4, t4) := fetchContractBalance w none s3
        ({ s4 with loading := false },
          [Eff.submitListTx s.itemName priceInWei, Eff.txWait] ++ t3 ++ t4 ++
            [Eff.alertMsg "Item listed successfully!"])

/-- `buyItem(id, price)`: wallet precondition; `setLoading(true)`; submit
`buyItem` attaching `parseEther(price)` as the transferred value and await
settlement; refresh listings and balance; alert; catch alerts; `finally`
clears `loading`. -/
def buyItem (w : World) (idv : Nat) (price : String) (s : AppState) :
    AppState × List Eff :=
  if s.account = none ∨ s.contract = none then
    (s, [Eff.alertMsg "Connect your wallet first"])
  else
    let s1 := pendingMutationState s
    match parseEther price with
    | none => ({ s1 with loading := false }, [Eff.alertMsg "Error buying item"])
    | some v =>
      match w.buyTx with
      | .error _ =>
        ({ s1 with loading := false },
          [Eff.submitBuyTx idv v, Eff.alertMsg "Error buying item"])
      | .ok _ =>
        let (s3, t3) := loadItems w s.contract s1
        let (s4, t4) := fetchContractBalance w none s3
        ({ s4 with loading := false },
          [Eff.submitBuyTx idv v, Eff.txWait] ++ t3 ++ t4 ++
            [Eff.alertMsg "Purchase completed!"])

lemma readItemsUpTo_ok (w : World) (n : Nat) (f : Nat → RawItem)
    (hf : ∀ i, 1 ≤ i → i ≤ n → w.itemAt i = Except.ok (f i)) :
    readItemsUpTo w n =
      (Except.ok ((List.range n).map fun k => toItem (f (k + 1))),
        (List.range n).map fun k => Eff.readItemAt (k + 1)) := by
  induction n with
  | zero => rfl
  | succ m ih =>
    have ihm := ih fun i h1 h2 => hf i h1 (Nat.le_succ_of_le h2)
    have hm := hf (m + 1) (by omega) le_rfl
    simp only [readItemsUpTo, ihm, hm, List.range_succ, List.map_append, List.map_cons,
      List.map_nil]

lemma readItemsUpTo_error (w : World) :
    ∀ n i, 1 ≤ i → i ≤ n → w.itemAt i = Except.error () →
      ∃ t, readItemsUpTo w n = (Except.error (), t) := by
  intro n
  induction n with
  | zero => intro i h1 h2 _; omega
  | succ m ih =>
    intro i h1 h2 hi
    by_cases him : i ≤ m
    · obtain ⟨t, ht⟩ := ih i h1 him hi
      exact ⟨t, by simp only [readItemsUpTo, ht]⟩
    · have hieq : i = m + 1 := by omega
      subst hieq
      rcases hrm : readItemsUpTo w m with ⟨res, t⟩
      cases res with
      | error e =>
        cases e
        exact ⟨t, by simp only [readItemsUpTo, hrm]⟩
      | ok pre =>
        exact ⟨t ++ [Eff.readItemAt (m + 1)], by simp only [readItemsUpTo, hrm, hi]⟩

/-- Demonstration oracle for witnesses: connected wallet already on the
target chain, two identical listings priced 1.5 SHM, balance 1.5 SHM. -/
def wdemo : World :=
  { ethereum := true
    chainId := .ok "0x1f90"
    switchChain := .ok ()
    addChain := .ok ()
    requestAccounts := .ok ["0xabc"]
    getBalance := .ok 1500000000000000000
    itemCount := .ok 2
    itemAt := fun i =>
      .ok { id := i, seller := "0xseller", name := "thing", price := 1500000000000000000,
            sold := false }
    listTx := .ok ()
    buyTx := .ok () }

/-- Demonstration state for witnesses: a fully bound session with a
non-empty form. -/
def sdemo : AppState :=
  { account := some "0xabc"
    provider := some ()
    contract := some ()
    items := []
    loading := false
    itemName := "x"
    itemPrice := "1.5"
    contractBalance := "0.0" }

/-- C1: for every prior state, when `accountsChanged` delivers an empty
account list the handler sets the session account to absent, clears the
bound contract handle, resets the listing cache to the empty sequence and
resets the displayed holding balance to zero (`"0.0"`). -/
theorem accountsChanged_empty_resets (w : World) (s : AppState) :
    (handleAccountsChanged w [] s).1.account = none ∧
    (handleAccountsChanged w [] s).1.contract = none ∧
    (handleAccountsChanged w [] s).1.items = [] ∧
    (handleAccountsChanged w [] s).1.contractBalance = "0.0" :=
  ⟨rfl, rfl, rfl, rfl⟩

/-- C7: `listNewItem` and `buyItem` render `pendingMutationState` (with
`loading = true`) from `setLoading(true)` until their `finally`, i.e. for
the whole in-flight window of a mutating operation; in that state the List
Item submit control and every Buy control are disabled
(`disabled={loading || !account || !contract}`), so a second mutating
invocation is blocked — never queued or run concurrently. -/
theorem pending_mutation_blocks_second (s : AppState) :
    (pendingMutationState s).loading = true ∧
    listButtonDisabled (pendingMutationState s) = true ∧
    buyButtonDisabled (pendingMutationState s) = true := by
  refine ⟨rfl, ?_, ?_⟩ <;>
    simp [listButtonDisabled, buyButtonDisabled, pendingMutationState]

/-- C9: the empty-account reset frames: provider binding, loading flag and
form fields are left unchanged, and with the provider still bound a
subsequent poll tick (`fetchContractBalance()` from the `setInterval`)
repopulates the balance display from the ledger while the session account
remains absent. -/
theorem accountsChanged_empty_frame (w : World) (s : AppState) (b : Nat)
    (hp : s.provider = some ()) (hb : w.getBalance = Except.ok b) :
    (handleAccountsChanged w [] s).1.provider = s.provider ∧
    (handleAccountsChanged w [] s).1.loading = s.loading ∧
    (handleAccountsChanged w [] s).1.itemName = s.itemName ∧
    (handleAccountsChanged w [] s).1.itemPrice = s.itemPrice ∧
    (fetchContractBalance w none (handleAccountsChanged w [] s).1).1.contractBalance
      = toFixed6 b ∧
    (fetchContractBalance w none (handleAccountsChanged w [] s).1).1.account = none := by
  refine ⟨rfl, rfl, rfl, rfl, ?_, ?_⟩ <;>
    simp [handleAccountsChanged, fetchContractBalance, hp, hb]

/-- Witness for C9 at a concrete connected state. -/
theorem accountsChanged_empty_frame_witness :
    (handleAccountsChanged wdemo [] sdemo).1.provider = sdemo.provider ∧
    (handleAccountsChanged wdemo [] sdemo).1.loading = sdemo.loading ∧
    (handleAccountsChanged wdemo [] sdemo).1.itemName = sdemo.itemName ∧
    (handleAccountsChanged wdemo [] sdemo).1.itemPrice = sdemo.itemPrice ∧
    (fetchContractBalance wdemo none (handleAccountsChanged wdemo [] sdemo).1).1.contractBalance
      = toFixed6 1500000000000000000 ∧
    (fetchContractBalance wdemo none (handleAccountsChanged wdemo [] sdemo).1).1.account
      = none :=
  accountsChanged_empty_frame wdemo sdemo 1500000000000000000 rfl rfl

/-- C2: with a bound contract, when `itemCount` returns `n` and every read
`items(i)` for `1 ≤ i ≤ n` succeeds, `loadItems` reads exactly the indices
`1..n` in ascending order, converts each native-unit price to its display
decimal (via `toItem`), and publishes a cache of length `n` that is the
exact reverse of the ascending-id sequence (most recent first). -/
theorem loadItems_success_spec (w : World) (s : AppState) (n : Nat) (f : Nat → RawItem)
    (hc : s.contract = some ()) (hn : w.itemCount = Except.ok n)
    (hf : ∀ i, 1 ≤ i → i ≤ n → w.itemAt i = Except.ok (f i)) :
    (loadItems w none s).1.items =
      ((List.range n).map fun k => toItem (f (k + 1))).reverse ∧
    (loadItems w none s).1.items.length = n ∧
    (loadItems w none s).2 =
      Eff.readItemCount :: (List.range n).map fun k => Eff.readItemAt (k + 1) := by
  have hread := readItemsUpTo_ok w n f hf
  refine ⟨?_, ?_, ?_⟩ <;> simp [loadItems, hc, hn, hread]

/-- Witness for C2: two listings read at indices 1, 2 and rendered 2, 1. -/
theorem loadItems_success_spec_witness :
    (loadItems wdemo none sdemo).1.items =
      ((List.range 2).map fun k =>
        toItem { id := k + 1, seller := "0xseller", name := "thing",
                 price := 1500000000000000000, sold := false }).reverse ∧
    (loadItems wdemo none sdemo).1.items.length = 2 ∧
    (loadItems wdemo none sdemo).2 =
      Eff.readItemCount :: (List.range 2).map fun k => Eff.readItemAt (k + 1) :=
  loadItems_success_spec wdemo sdemo 2
    (fun i => { id := i, seller := "0xseller", name := "thing",
                price := 1500000000000000000, sold := false })
    rfl rfl (fun _ _ _ => rfl)

/-- C5: if the refresh fails — `itemCount` throwing, or any per-index read
`items(i)` with `1 ≤ i ≤ itemCount` throwing mid-loop — the previously
cached listing sequence is left exactly as it was (partial results are
discarded, never merged) and the loading flag ends up `false`. -/
theorem loadItems_failure_keeps_cache (w : World) (s : AppState)
    (hc : s.contract = some ())
    (h : w.itemCount = Except.error () ∨
      ∃ n i, w.itemCount = Except.ok n ∧ 1 ≤ i ∧ i ≤ n ∧ w.itemAt i = Except.error ()) :
    (loadItems w none s).1.items = s.items ∧
    (loadItems w none s).1.loading = false := by
  rcases h with h | ⟨n, i, hn, h1, h2, hi⟩
  · constructor <;> simp [loadItems, hc, h]
  · obtain ⟨t, ht⟩ := readItemsUpTo_error w n i h1 h2 hi
    constructor <;> simp [loadItems, hc, hn, ht]

/-- Witness for C5: the read at index 2 throws; the prior cache (one item)
survives and loading ends false. -/
theorem loadItems_failure_keeps_cache_witness :
    (loadItems
      { wdemo with itemAt := fun i => if i = 2 then .error () else wdemo.itemAt i }
      none sdemo).1.items = sdemo.items ∧
    (loadItems
      { wdemo with itemAt := fun i => if i = 2 then .error () else wdemo.itemAt i }
      none sdemo).1.loading = false :=
  loadItems_failure_keeps_cache _ sdemo rfl
    (Or.inr ⟨2, 2, rfl, by omega, by omega, rfl⟩)

/-- C3: with a wallet present and the chain id read returning `cid`:
if `cid` equals the target `"0x1f90"` the guarantor issues no switch and no
registration request; otherwise it requests a switch; a registration
request is issued iff the switch failed with code 4902, and any such
request carries the fixed Liberty descriptor; a switch failure with any
other code makes the guarantor propagate an error, and the connect flow
aborts: state unchanged and no account-authorization request issued. -/
theorem ensureNetwork_spec (w : World) (s : AppState) (cid : String)
    (he : w.ethereum = true) (hcid : w.chainId = Except.ok cid) :
    (cid = "0x1f90" → ensureNetwork w cid = (Except.ok (), [])) ∧
    (cid ≠ "0x1f90" → Eff.reqSwitchChain "0x1f90" ∈ (ensureNetwork w cid).2) ∧
    ((∃ d, Eff.reqAddChain d ∈ (ensureNetwork w cid).2) ↔
      cid ≠ "0x1f90" ∧ w.switchChain = Except.error 4902) ∧
    (∀ d, Eff.reqAddChain d ∈ (ensureNetwork w cid).2 → d = libertyChain) ∧
    (∀ code, cid ≠ "0x1f90" → w.switchChain = Except.error code → code ≠ 4902 →
      (ensureNetwork w cid).1 = Except.error () ∧
      (connectWallet w s).1 = s ∧ Eff.reqAccounts ∉ (connectWallet w s).2) := by
  by_cases hc : cid = "0x1f90"
  · subst hc
    refine ⟨fun _ => by simp [ensureNetwork], fun h => absurd rfl h, ?_, ?_, ?_⟩
    · simp [ensureNetwork]
    · intro d hd
      simp [ensureNetwork] at hd
    · intro code h _ _
      exact absurd rfl h
  · cases hsw : w.switchChain with
    | ok u =>
      cases u
      refine ⟨fun h => absurd h hc, ?_, ?_, ?_, ?_⟩
      · intro _
        simp [ensureNetwork, hc, hsw]
      · simp [ensureNetwork, hc, hsw]
      · intro d hd
        simp [ensureNetwork, hc, hsw] at hd
      · intro code _ hcode _
        exact absurd hcode (by simp)
    | error code =>
      by_cases h4 : code = 4902
      · subst h4
        have heffs : (ensureNetwork w cid).2 =
            [Eff.reqSwitchChain "0x1f90", Eff.reqAddChain libertyChain] := by
          cases had : w.addChain with
          | ok v => cases v; simp [ensureNetwork, hc, hsw, had]
          | error e => cases e; simp [ensureNetwork, hc, hsw, had]
        refine ⟨fun h => absurd h hc, ?_, ?_, ?_, ?_⟩
        · intro _
          rw [heffs]
          simp
        · rw [heffs]
          constructor
          · intro _
            exact ⟨hc, rfl⟩
          · intro _
            exact ⟨libertyChain, by simp⟩
        · intro d hd
          rw [heffs] at hd
          simp at hd
          exact hd
        · intro code2 _ hcode2 hne
          injection hcode2 with hq
          exact absurd hq.symm hne
      · have hnet : ensureNetwork w cid = (Except.error (), [Eff.reqSwitchChain "0x1f90"]) := by
          simp [ensureNetwork, hc, hsw, h4]
        refine ⟨fun h => absurd h hc, ?_, ?_, ?_, ?_⟩
        · intro _
          rw [hnet]
          simp
        · rw [hnet]
          simp [h4]
        · intro d hd
          rw [hnet] at hd
          simp at hd
        · intro code2 _ _ _
          refine ⟨by rw [hnet], ?_, ?_⟩
          · simp [connectWallet, he, hcid, hnet]
          · simp [connectWallet, he, hcid, hnet]

/-- Witness for C3 at the demo oracle (already on the target chain). -/
theorem ensureNetwork_spec_witness :
    (("0x1f90" : String) = "0x1f90" →
      ensureNetwork wdemo "0x1f90" = (Except.ok (), [])) ∧
    (("0x1f90" : String) ≠ "0x1f90" →
      Eff.reqSwitchChain "0x1f90" ∈ (ensureNetwork wdemo "0x1f90").2) ∧
    ((∃ d, Eff.reqAddChain d ∈ (ensureNetwork wdemo "0x1f90").2) ↔
      ("0x1f90" : String) ≠ "0x1f90" ∧ wdemo.switchChain = Except.error 4902) ∧
    (∀ d, Eff.reqAddChain d ∈ (ensureNetwork wdemo "0x1f90").2 → d = libertyChain) ∧
    (∀ code, ("0x1f90" : String) ≠ "0x1f90" →
      wdemo.switchChain = Except.error code → code ≠ 4902 →
      (ensureNetwork wdemo "0x1f90").1 = Except.error () ∧
      (connectWallet wdemo sdemo).1 = sdemo ∧
      Eff.reqAccounts ∉ (connectWallet wdemo sdemo).2) :=
  ensureNetwork_spec wdemo sdemo "0x1f90" rfl rfl

/-- C10: if `connectWallet` fails at any step before account binding — no
wallet, chain id read throwing, a network switch failure that is not
recovered by registration, a registration failure, the authorization
request throwing — or the wallet authorizes zero accounts, then the whole
state (account, provider, contract handle, listing cache, everything) is
exactly as before the call: a failed connect is atomic. -/
theorem connectWallet_atomic (w : World) (s : AppState)
    (h : w.ethereum = false ∨ w.chainId = Except.error () ∨
      (∃ cid code, w.chainId = Except.ok cid ∧ cid ≠ "0x1f90" ∧
        w.switchChain = Except.error code ∧
        (code ≠ 4902 ∨ w.addChain = Except.error ())) ∨
      w.requestAccounts = Except.error () ∨ w.requestAccounts = Except.ok []) :
    (connectWallet w s).1 = s := by
  by_cases he : w.ethereum = false
  · simp [connectWallet, he]
  · simp only [Bool.not_eq_false] at he
    cases hcid : w.chainId with
    | error e =>
      cases e
      simp [connectWallet, he, hcid]
    | ok cid =>
      rcases hen : ensureNetwork w cid with ⟨res, net⟩
      cases res with
      | error e2 =>
        cases e2
        simp [connectWallet, he, hcid, hen]
      | ok u =>
        cases u
        rcases h with h | h | ⟨cid2, code, hcid2, hne, hsw, hrest⟩ | h | h
        · rw [h] at he
          exact absurd he (by simp)
        · rw [hcid] at h
          exact absurd h (by simp)
        · exfalso
          rw [hcid] at hcid2
          injection hcid2 with hq
          subst hq
          have herr : (ensureNetwork w cid).1 = Except.error () := by
            rcases hrest with hcode | hadd
            · simp [ensureNetwork, hne, hsw, hcode]
            · by_cases h4 : code = 4902
              · subst h4
                simp [ensureNetwork, hne, hsw, hadd]
              · simp [ensureNetwork, hne, hsw, h4]
          rw [hen] at herr
          simp at herr
        · simp [connectWallet, he, hcid, hen, h]
        · simp [connectWallet, he, hcid, hen, h]

/-- Witness for C10: the authorization request is rejected; the state is
untouched. -/
theorem connectWallet_atomic_witness :
    (connectWallet { wdemo with requestAccounts := .error () } sdemo).1 = sdemo :=
  connectWallet_atomic _ sdemo (Or.inr (Or.inr (Or.inr (Or.inl rfl))))


lemma loadItems_provider (w : World) (c : Option Unit) (s : AppState) :
    (loadItems w c s).1.provider = s.provider := by
  cases h0 : (if c.isSome then c else s.contract) with
  | none => simp [loadItems, h0]
  | some u =>
    cases h1 : w.itemCount with
    | error e => simp [loadItems, h0, h1]
    | ok count =>
      rcases h2 : readItemsUpTo w count with ⟨res, t⟩
      cases res <;> simp [loadItems, h0, h1, h2]

lemma readItemCount_mem_loadItems (w : World) (s : AppState) :
    Eff.readItemCount ∈ (loadItems w (some ()) s).2 := by
  cases h1 : w.itemCount with
  | error e => simp [loadItems, h1]
  | ok count =>
    rcases h2 : readItemsUpTo w count with ⟨res, t⟩
    cases res <;> simp [loadItems, h1, h2]

lemma getBalance_mem_fetch (w : World) (s : AppState) (hp : s.provider = some ()) :
    Eff.getBalanceEff ∈ (fetchContractBalance w none s).2 := by
  cases hb : w.getBalance <;> simp [fetchContractBalance, hp, hb]
/-- C8: the display/native price round-trip is exact: the listing assembly
stores `formatEther raw.price` as the display decimal; parsing that display
decimal back recovers the native amount exactly (no floating-point drift:
all arithmetic is exact bignum/fixed-point); and `buyItem` on a listing
displayed from native amount `x` attaches exactly `x` wei as the
transferred value of the submitted transaction. -/
theorem price_roundtrip_exact (w : World) (s : AppState) (a : String)
    (idv x : Nat) (raw : RawItem)
    (ha : s.account = some a) (hc : s.contract = some ()) :
    (toItem raw).price = formatEther raw.price ∧
    parseEther (formatEther x) = some x ∧
    Eff.submitBuyTx idv x ∈ (buyItem w idv (formatEther x) s).2 := by
  refine ⟨rfl, parseEther_formatEther x, ?_⟩
  unfold buyItem
  rw [if_neg (by simp [ha, hc])]
  simp only [parseEther_formatEther x]
  cases hb : w.buyTx <;> simp [hb]

/-- Witness for C8 at 123.456789 SHM. -/
theorem price_roundtrip_exact_witness :
    (toItem { id := 1, seller := "0xseller", name := "thing",
              price := 123456789000000000000, sold := false }).price
      = formatEther 123456789000000000000 ∧
    parseEther (formatEther 123456789000000000000) = some 123456789000000000000 ∧
    Eff.submitBuyTx 1 123456789000000000000 ∈
      (buyItem wdemo 1 (formatEther 123456789000000000000) sdemo).2 :=
  price_roundtrip_exact wdemo sdemo "0xabc" 1 123456789000000000000
    { id := 1, seller := "0xseller", name := "thing",
      price := 123456789000000000000, sold := false } rfl rfl

/-- C6 counterexample: the source validates only string presence
(`!itemName || !itemPrice`), not positivity.  With a bound session, name
`"x"` and price string `"0"` — a price that is not strictly positive —
`listNewItem` does not fail locally: it submits `listItem("x", 0)` to the
network, refuting the claim that a non-positive price yields a local
validation failure with no network call. -/
theorem listNewItem_zero_price_submits :
    Eff.submitListTx "x" 0 ∈ (listNewItem wdemo { sdemo with itemPrice := "0" }).2 := by
  decide

/-- C6 (amended): with a bound session, `listNewItem` fails locally with a
validation alert and no network effect exactly when the name string or the
price string is empty; whenever both are non-empty and the price string
parses to `p` — whether or not `p` is positive — it proceeds to submit
`listItem(name, p)`. -/
theorem listNewItem_presence_validation (w : World) (s : AppState) (a : String)
    (ha : s.account = some a) (hc : s.contract = some ()) :
    (s.itemName = "" ∨ s.itemPrice = "" →
      listNewItem w s = (s, [Eff.alertMsg "Please enter item name and price"])) ∧
    (∀ p, s.itemName ≠ "" → s.itemPrice ≠ "" → parseEther s.itemPrice = some p →
      Eff.submitListTx s.itemName p ∈ (listNewItem w s).2) := by
  constructor
  · intro hemp
    unfold listNewItem
    rw [if_neg (by simp [ha, hc]), if_pos hemp]
  · intro p hn hpr hp
    unfold listNewItem
    rw [if_neg (by simp [ha, hc]), if_neg (by simp [hn, hpr])]
    simp only [hp]
    cases hl : w.listTx <;> simp [hl]

/-- Witness for C6's amended statement at the demo session (price "1.5"). -/
theorem listNewItem_presence_validation_witness :
    (sdemo.itemName = "" ∨ sdemo.itemPrice = "" →
      listNewItem wdemo sdemo = (sdemo, [Eff.alertMsg "Please enter item name and price"])) ∧
    (∀ p, sdemo.itemName ≠ "" → sdemo.itemPrice ≠ "" →
      parseEther sdemo.itemPrice = some p →
      Eff.submitListTx sdemo.itemName p ∈ (listNewItem wdemo sdemo).2) :=
  listNewItem_presence_validation wdemo sdemo "0xabc" rfl rfl

/-- The state right after a `listNewItem` settlement, before the refresh:
`setLoading(true)` ran at submission and the form fields were cleared
(lines 191, 195-196); the listing cache is untouched. -/
def afterListSettle (s : AppState) : AppState :=
  { s with loading := true, itemName := "", itemPrice := "" }

/-- C4: on a settled mutation (`listNewItem` or `buyItem`) the client
triggers both a full listings refresh and a balance refresh, sequenced
strictly after the settlement wait (`txWait`), and performs no speculative
local update of the cache: the state entering the refresh still carries the
original listing cache, the refreshes actually read the ledger
(`itemCount`/`getBalance` requests are issued), and the published cache is
exactly the output of the refresh pipeline. -/
theorem mutation_refreshes_after_settlement (w : World) (s : AppState) (a : String)
    (idv : Nat) (price : String) (p v : Nat)
    (ha : s.account = some a) (hc : s.contract = some ()) (hp : s.provider = some ())
    (hn : s.itemName ≠ "") (hpr : s.itemPrice ≠ "")
    (hparse : parseEther s.itemPrice = some p) (hbparse : parseEther price = some v)
    (hlist : w.listTx = Except.ok ()) (hbuy : w.buyTx = Except.ok ()) :
    ((listNewItem w s).2 =
      [Eff.submitListTx s.itemName p, Eff.txWait] ++
        (loadItems w s.contract (afterListSettle s)).2 ++
        (fetchContractBalance w none (loadItems w s.contract (afterListSettle s)).1).2 ++
        [Eff.alertMsg "Item listed successfully!"]) ∧
    Eff.readItemCount ∈ (loadItems w s.contract (afterListSettle s)).2 ∧
    Eff.getBalanceEff ∈
      (fetchContractBalance w none (loadItems w s.contract (afterListSettle s)).1).2 ∧
    (listNewItem w s).1.items =
      (fetchContractBalance w none (loadItems w s.contract (afterListSettle s)).1).1.items ∧
    (afterListSettle s).items = s.items ∧
    ((buyItem w idv price s).2 =
      [Eff.submitBuyTx idv v, Eff.txWait] ++
        (loadItems w s.contract (pendingMutationState s)).2 ++
        (fetchContractBalance w none (loadItems w s.contract (pendingMutationState s)).1).2 ++
        [Eff.alertMsg "Purchase completed!"]) ∧
    Eff.readItemCount ∈ (loadItems w s.contract (pendingMutationState s)).2 ∧
    Eff.getBalanceEff ∈
      (fetchContractBalance w none (loadItems w s.contract (pendingMutationState s)).1).2 ∧
    (buyItem w idv price s).1.items =
      (fetchContractBalance w none (loadItems w s.contract (pendingMutationState s)).1).1.items ∧
    (pendingMutationState s).items = s.items := by
  have hmem1 : Eff.readItemCount ∈ (loadItems w s.contract (afterListSettle s)).2 := by
    rw [hc]
    exact readItemCount_mem_loadItems w _
  have hmem2 : Eff.readItemCount ∈ (loadItems w s.contract (pendingMutationState s)).2 := by
    rw [hc]
    exact readItemCount_mem_loadItems w _
  have hprov1 : (loadItems w s.contract (afterListSettle s)).1.provider = some () := by
    rw [loadItems_provider]
    exact hp
  have hprov2 : (loadItems w s.contract (pendingMutationState s)).1.provider = some () := by
    rw [loadItems_provider]
    exact hp
  have hmem3 := getBalance_mem_fetch w _ hprov1
  have hmem4 := getBalance_mem_fetch w _ hprov2
  refine ⟨?_, hmem1, hmem3, ?_, rfl, ?_, hmem2, hmem4, ?_, rfl⟩
  · unfold listNewItem
    rw [if_neg (by simp [ha, hc]), if_neg (by simp [hn, hpr])]
    simp only [hparse, hlist, pendingMutationState, afterListSettle]
  · unfold listNewItem
    rw [if_neg (by simp [ha, hc]), if_neg (by simp [hn, hpr])]
    simp only [hparse, hlist, pendingMutationState, afterListSettle]
  · unfold buyItem
    rw [if_neg (by simp [ha, hc])]
    simp only [hbparse, hbuy, pendingMutationState]
  · unfold buyItem
    rw [if_neg (by simp [ha, hc])]
    simp only [hbparse, hbuy, pendingMutationState]

/-- Witness for C4 at the demo session (name "x", price "1.5"). -/
theorem mutation_refreshes_after_settlement_witness :
    ((listNewItem wdemo sdemo).2 =
      [Eff.submitListTx sdemo.itemName 1500000000000000000, Eff.txWait] ++
        (loadItems wdemo sdemo.contract (afterListSettle sdemo)).2 ++
        (fetchContractBalance wdemo none
          (loadItems wdemo sdemo.contract (afterListSettle sdemo)).1).2 ++
        [Eff.alertMsg "Item listed successfully!"]) ∧
    Eff.readItemCount ∈ (loadItems wdemo sdemo.contract (afterListSettle sdemo)).2 ∧
    Eff.getBalanceEff ∈
      (fetchContractBalance wdemo none
        (loadItems wdemo sdemo.contract (afterListSettle sdemo)).1).2 ∧
    (listNewItem wdemo sdemo).1.items =
      (fetchContractBalance wdemo none
        (loadItems wdemo sdemo.contract (afterListSettle sdemo)).1).1.items ∧
    (afterListSettle sdemo).items = sdemo.items ∧
    ((buyItem wdemo 1 "0.0001" sdemo).2 =
      [Eff.submitBuyTx 1 100000000000000, Eff.txWait] ++
        (loadItems wdemo sdemo.contract (pendingMutationState sdemo)).2 ++
        (fetchContractBalance wdemo none
          (loadItems wdemo sdemo.contract (pendingMutationState sdemo)).1).2 ++
        [Eff.alertMsg "Purchase completed!"]) ∧
    Eff.readItemCount ∈ (loadItems wdemo sdemo.contract (pendingMutationState sdemo)).2 ∧
    Eff.getBalanceEff ∈
      (fetchContractBalance wdemo none
        (loadItems wdemo sdemo.contract (pendingMutationState sdemo)).1).2 ∧
    (buyItem wdemo 1 "0.0001" sdemo).1.items =
      (fetchContractBalance wdemo none
        (loadItems wdemo sdemo.contract (pendingMutationState sdemo)).1).1.items ∧
    (pendingMutationState sdemo).items = sdemo.items :=
  mutation_refreshes_after_settlement wdemo sdemo "0xabc" 1 "0.0001"
    1500000000000000000 100000000000000 rfl rfl rfl
    (by decide) (by decide) (by decide) (by decide) rfl rfl
